import Mathlib

set_option linter.unusedVariables false

namespace VinDecoder

/-! Shallow embedding of src/vin_processor_batches.py, fixed to the Linux
    platform: os.linesep is "\n", text-mode writes are the identity and
    text-mode reads perform universal-newline translation. Text is modelled
    as `List Char`; the filesystem as an association list from filename to
    file content; `os.path.getsize` as the length of the content (exact for
    one-byte characters). Printing is not modelled, except that the
    header-mismatch warning of `append_results_to_csv_with_rollover` is
    surfaced in the `warn` field of the result. An IOError inside the append
    loop is modelled by the `ioFail` parameter: `none` means the write
    succeeds in full, `some k` means the IOError is raised after `k` lines
    have been written (the `with open(..., "a")` has already created the
    file when missing). -/

abbrev Str := List Char

/-- The characters stripped by Python str.strip with no argument
    (the Unicode whitespace characters). -/
def pySpace (c : Char) : Bool :=
  c = ' ' || ('\x09' ≤ c && c ≤ '\x0d') ||
  c = '\x1c' || c = '\x1d' || c = '\x1e' || c = '\x1f' ||
  c = '\x85' || c = '\xa0' || c = ' ' || (' ' ≤ c && c ≤ ' ') ||
  c = ' ' || c = ' ' || c = ' ' || c = ' ' || c = '　'

/-- Python str.strip(): drop whitespace from both ends. -/
def pyStrip (s : Str) : Str :=
  ((s.dropWhile pySpace).reverse.dropWhile pySpace).reverse

/-- Python str.rstrip("\r\n"): drop trailing CR and LF characters. -/
def pyRstripNL (s : Str) : Str :=
  (s.reverse.dropWhile (fun c => c = '\n' || c = '\r')).reverse

/-- The line-boundary characters recognised by Python str.splitlines. -/
def isLineBreak (c : Char) : Bool :=
  c = '\n' || c = '\r' || c = '\x0b' || c = '\x0c' ||
  c = '\x1c' || c = '\x1d' || c = '\x1e' || c = '\x85' ||
  c = ' ' || c = ' '

/-- Worker for `pySplitlines`; `acc` holds the current line reversed. -/
def splitlinesAux : Str → Str → List Str
  | [], acc => if acc = [] then [] else [acc.reverse]
  | '\r' :: '\n' :: rest, acc => acc.reverse :: splitlinesAux rest []
  | '\r' :: rest, acc => acc.reverse :: splitlinesAux rest []
  | c :: rest, acc =>
    if isLineBreak c then acc.reverse :: splitlinesAux rest []
    else splitlinesAux rest (c :: acc)

/-- Python str.splitlines(): split at line boundaries ("\r\n" counts as a
    single boundary), boundaries not kept, no empty final line for a
    trailing boundary. -/
def pySplitlines (s : Str) : List Str :=
  splitlinesAux s []

/-- Universal-newline translation performed by a text-mode read on any
    platform: "\r\n" and a lone "\r" both become "\n". -/
def translateNewlines : Str → Str
  | [] => []
  | '\r' :: '\n' :: rest => '\n' :: translateNewlines rest
  | '\r' :: rest => '\n' :: translateNewlines rest
  | c :: rest => c :: translateNewlines rest

/-- Worker for `pyReadlines`: split after each newline, keeping the
    newline; `acc` holds the current line reversed. -/
def readlinesAux : Str → Str → List Str
  | [], acc => if acc = [] then [] else [acc.reverse]
  | c :: rest, acc =>
    if c = '\n' then (acc.reverse ++ ['\n']) :: readlinesAux rest []
    else readlinesAux rest (c :: acc)

/-- Python file.readlines() on a text-mode handle: universal-newline
    translation, then split keeping each terminating newline. -/
def pyReadlines (s : Str) : List Str :=
  readlinesAux (translateNewlines s) []

/-- os.linesep on Linux. -/
def osLinesep : Str := ['\n']

/-! ### Filesystem model -/

/-- The filesystem: an association list from filename to file content. -/
abbrev FS := List (Str × Str)

/-- Content of a file, if it exists. -/
def fsRead : FS → Str → Option Str
  | [], _ => none
  | (n, c) :: rest, name => if n = name then some c else fsRead rest name

/-- os.path.exists. -/
def fsExists (fs : FS) (name : Str) : Bool :=
  (fsRead fs name).isSome

/-- os.path.getsize (0 for a missing file; the source only calls it on
    existing files). -/
def fsSize (fs : FS) (name : Str) : Nat :=
  ((fsRead fs name).getD []).length

/-- Replace the content of `name`, creating the entry if absent. -/
def fsWrite : FS → Str → Str → FS
  | [], name, c => [(name, c)]
  | (n, c0) :: rest, name, c =>
    if n = name then (n, c) :: rest else (n, c0) :: fsWrite rest name c

/-! ### Rollover writer: append_results_to_csv_with_rollover, lines 49-137 -/

/-- Python truthiness of the optional header string: None and "" are falsy. -/
def headerTruthy : Option Str → Bool
  | none => false
  | some s => !s.isEmpty

/-- Output filename for a file index (lines 66-70 and 78-82):
    index 0 gives base.csv, index k > 0 gives base{k}.csv. -/
def resolveName (base : Str) (idx : Nat) : Str :=
  if idx = 0 then base ++ ['.', 'c', 's', 'v']
  else base ++ Nat.toDigits 10 idx ++ ['.', 'c', 's', 'v']

/-- Result of the initial rollover check. -/
structure PreRoll where
  idx : Nat
  hdr : Option Str
  name : Str
deriving DecidableEq

/-- Initial rollover check (lines 72-83): if the resolved file exists and
    its size exceeds the limit, advance the index, clear the header and
    re-resolve the filename. -/
def preRollover (fs : FS) (base : Str) (idx0 : Nat) (maxBytes : Nat)
    (hdr0 : Option Str) : PreRoll :=
  if fsExists fs (resolveName base idx0) = true ∧
      fsSize fs (resolveName base idx0) > maxBytes then
    ⟨idx0 + 1, none, resolveName base (idx0 + 1)⟩
  else
    ⟨idx0, hdr0, resolveName base idx0⟩

/-- Line preparation (lines 86-96, as applied to the stripped text):
    split into lines, strip each line, keep the non-empty ones. -/
def cleanBatchLines (raw : Str) : List Str :=
  ((pySplitlines (pyStrip raw)).map pyStrip).filter (fun l => !l.isEmpty)

/-- Outcome of the header decision (lines 103-118). -/
structure WriteDecision where
  toWrite : List Str
  hdr : Option Str
  warn : Option (Str × Str)
deriving DecidableEq

/-- The header decision (lines 103-118): write everything when the file is
    missing or no truthy header is recorded; write only the data lines on a
    textual header match; on a mismatch write nothing and warn with both
    header strings. -/
def decideWrite (fileExists : Bool) (hdr1 : Option Str) (batchHdr : Str)
    (dataLines : List Str) : WriteDecision :=
  if fileExists = false ∨ headerTruthy hdr1 = false then
    ⟨batchHdr :: dataLines, some batchHdr, none⟩
  else if hdr1 = some batchHdr then
    ⟨dataLines, hdr1, none⟩
  else
    ⟨[], hdr1, some (hdr1.getD [], batchHdr)⟩

/-- The bytes appended for a list of lines (line 124: each line followed by
    os.linesep). -/
def linesJoined (lines : List Str) : Str :=
  (lines.map (fun l => l ++ osLinesep)).flatten

/-- Result of one writer call: the returned triple
    (updated index, updated headers, output filename) plus the resulting
    filesystem and the mismatch warning, if printed. -/
structure WriterResult where
  idx : Nat
  headers : Option Str
  filename : Str
  fs : FS
  warn : Option (Str × Str)
deriving DecidableEq

/-- append_results_to_csv_with_rollover (lines 49-137). `maxMb` is
    max_size_mb, `hdr0` is existing_headers_string, `idx0` is
    current_file_idx. -/
def append_results_to_csv_with_rollover (fs : FS) (raw : Str) (base : Str)
    (idx0 : Nat) (maxMb : Nat) (hdr0 : Option Str) (ioFail : Option Nat) :
    WriterResult :=
  let maxBytes := maxMb * 1024 * 1024
  let p := preRollover fs base idx0 maxBytes hdr0
  if pyStrip raw = [] then
    ⟨p.idx, p.hdr, p.name, fs, none⟩
  else
    match cleanBatchLines raw with
    | [] => ⟨p.idx, p.hdr, p.name, fs, none⟩
    | batchHdr :: dataLines =>
      let d := decideWrite (fsExists fs p.name) p.hdr batchHdr dataLines
      if d.toWrite = [] then
        ⟨p.idx, d.hdr, p.name, fs, d.warn⟩
      else
        let written := match ioFail with
          | none => d.toWrite
          | some k => d.toWrite.take k
        let newContent := ((fsRead fs p.name).getD []) ++ linesJoined written
        let fs1 := fsWrite fs p.name newContent
        match ioFail with
        | some _ => ⟨p.idx, d.hdr, p.name, fs1, d.warn⟩
        | none =>
          if newContent.length > maxBytes then
            ⟨p.idx + 1, none, p.name, fs1, d.warn⟩
          else
            ⟨p.idx, d.hdr, p.name, fs1, d.warn⟩

/-! ### Cleanup pass: remove_blank_rows_from_file, lines 140-174 -/

/-- remove_blank_rows_from_file (lines 140-174): skip a missing file; drop
    the lines that are blank after stripping; if none were blank leave the
    file untouched, otherwise rewrite it with each kept line normalised to
    end in os.linesep. -/
def remove_blank_rows_from_file (fs : FS) (path : Str) : FS :=
  match fsRead fs path with
  | none => fs
  | some content =>
    let lines := pyReadlines content
    let cleaned := lines.filter (fun l => !(pyStrip l).isEmpty)
    if cleaned.length = lines.length then fs
    else fsWrite fs path ((cleaned.map (fun l => pyRstripNL l ++ osLinesep)).flatten)

/-! ### Batch orchestrator: decode_vins_in_batches, lines 177-263 -/

/-- Number of batches (line 199) with the fixed batch size 50 (line 198). -/
def numBatches (l : List Str) : Nat :=
  (l.length + 50 - 1) / 50

/-- The i-th batch (lines 202-204): vin_list[i*50 : i*50+50]. -/
def batchOf (l : List Str) (i : Nat) : List Str :=
  (l.drop (i * 50)).take 50

/-- The request payload for the i-th batch (line 206): the batch joined
    with ";". -/
def vinPayload (l : List Str) (i : Nat) : Str :=
  List.intercalate [';'] (batchOf l i)

/-- Add to the written-files set (line 234; Python uses a set, modelled as
    a duplicate-free insertion-ordered list). -/
def insertIfAbsent (x : Str) (l : List Str) : List Str :=
  if x ∈ l then l else l ++ [x]

/-- Orchestrator state threaded through the batch loop. -/
structure OrchState where
  total : Nat
  idx : Nat
  headers : Option Str
  written : List Str
  fs : FS
deriving DecidableEq

/-- The body of the batch loop (lines 212-258) for one batch. `resp` is the
    response text, `none` standing for any of the caught request/HTTP
    exceptions (which leave the state unchanged). -/
def processBatch (base : Str) (maxMb : Nat) (st : OrchState)
    (resp : Option Str) (ioFail : Option Nat) : OrchState :=
  match resp with
  | none => st
  | some raw =>
    if raw ≠ [] ∧ pyStrip raw ≠ [] then
      let processed := cleanBatchLines raw
      let numData : Int := if processed = [] then -1 else (processed.length : Int) - 1
      if 0 ≤ numData then
        let r := append_results_to_csv_with_rollover st.fs raw base st.idx maxMb
          st.headers ioFail
        let written1 := if fsExists r.fs r.filename then
            insertIfAbsent r.filename st.written
          else st.written
        let total1 := if 0 < numData then st.total + (processed.length - 1) else st.total
        let headers1 :=
          if numData = 0 ∧ processed.length = 1 ∧ headerTruthy r.headers = false then
            (if processed.headD [] ≠ [] then some (processed.headD []) else r.headers)
          else r.headers
        ⟨total1, r.idx, headers1, written1, r.fs⟩
      else st
    else st

/-- decode_vins_in_batches (lines 177-263). `api` maps a request payload to
    the response text (`none` for a raised request exception); `ioFail`
    gives the write-failure behaviour of each batch index. Returns the
    total count, the written-files list and the final filesystem. -/
def decode_vins_in_batches (fs : FS) (vin_list : List Str) (base : Str)
    (maxMb : Nat) (api : Str → Option Str) (ioFail : Nat → Option Nat) :
    Nat × List Str × FS :=
  if vin_list = [] then (0, [], fs)
  else
    let final := (List.range (numBatches vin_list)).foldl
      (fun st i => processBatch base maxMb st (api (vinPayload vin_list i)) (ioFail i))
      ⟨0, 0, none, [], fs⟩
    (final.total, final.written, final.fs)

/-! ### Basic lemmas about the text primitives and the filesystem -/

theorem pySplitlines_nil : pySplitlines [] = [] := rfl

theorem cleanBatchLines_of_strip_nil {raw : Str} (h : pyStrip raw = []) :
    cleanBatchLines raw = [] := by
  unfold cleanBatchLines
  rw [h, pySplitlines_nil]
  rfl

theorem strip_ne_nil_of_clean {raw : Str} (h : cleanBatchLines raw ≠ []) :
    pyStrip raw ≠ [] :=
  fun hs => h (cleanBatchLines_of_strip_nil hs)

theorem raw_ne_nil_of_clean {raw : Str} (h : cleanBatchLines raw ≠ []) :
    raw ≠ [] := by
  intro he
  exact strip_ne_nil_of_clean h (by rw [he]; rfl)

theorem clean_head_ne_nil {raw bh : Str} {dl : List Str}
    (h : cleanBatchLines raw = bh :: dl) : bh ≠ [] := by
  have hm : bh ∈ cleanBatchLines raw := by
    rw [h]; exact List.mem_cons_self _ _
  unfold cleanBatchLines at hm
  have hp := List.of_mem_filter hm
  simpa [List.isEmpty_iff] using hp

theorem headerTruthy_some {s : Str} (h : s ≠ []) :
    headerTruthy (some s) = true := by
  simp [headerTruthy, List.isEmpty_iff, h]

theorem mem_insertIfAbsent {x y : Str} {l : List Str} :
    y ∈ insertIfAbsent x l ↔ y ∈ l ∨ y = x := by
  unfold insertIfAbsent
  by_cases hx : x ∈ l
  · rw [if_pos hx]
    exact ⟨Or.inl, fun h => h.elim id (fun he => he ▸ hx)⟩
  · rw [if_neg hx]
    simp

theorem fsRead_fsWrite_self (fs : FS) (name c : Str) :
    fsRead (fsWrite fs name c) name = some c := by
  induction fs with
  | nil => simp [fsWrite, fsRead]
  | cons hd rest ih =>
    obtain ⟨n, c0⟩ := hd
    by_cases h : n = name
    · simp [fsWrite, fsRead, h]
    · simp [fsWrite, fsRead, h, ih]

/-! ### Lemmas about newline translation, readlines and strip,
     for the cleanup pass -/

theorem translate_no_cr (s : Str) : ∀ c ∈ translateNewlines s, c ≠ '\r' := by
  induction s using translateNewlines.induct with
  | case1 => simp [translateNewlines]
  | case2 rest ih =>
    rw [translateNewlines.eq_2]
    intro c hc
    rcases List.mem_cons.mp hc with h | h
    · subst h; decide
    · exact ih c h
  | case3 rest hne ih =>
    rw [translateNewlines.eq_3 rest hne]
    intro c hc
    rcases List.mem_cons.mp hc with h | h
    · subst h; decide
    · exact ih c h
  | case4 c0 rest h1 h2 ih =>
    rw [translateNewlines.eq_4 c0 rest h1 h2]
    intro c hc
    rcases List.mem_cons.mp hc with h | h
    · subst h; exact h2
    · exact ih c h

theorem translate_id (s : Str) (h : ∀ c ∈ s, c ≠ '\r') :
    translateNewlines s = s := by
  induction s with
  | nil => rfl
  | cons c rest ih =>
    have hc : c ≠ '\r' := h c (List.mem_cons_self _ _)
    rw [translateNewlines.eq_4 c rest (fun _ he _ => hc he) (fun he => hc he)]
    rw [ih (fun x hx => h x (List.mem_cons_of_mem _ hx))]

theorem pyStrip_eq_nil_iff (l : Str) :
    pyStrip l = [] ↔ ∀ c ∈ l, pySpace c = true := by
  unfold pyStrip
  constructor
  · intro h c hc
    rw [List.reverse_eq_nil_iff, List.dropWhile_eq_nil_iff] at h
    have hsplit : c ∈ List.takeWhile pySpace l ++ List.dropWhile pySpace l := by
      rw [List.takeWhile_append_dropWhile]; exact hc
    rcases List.mem_append.mp hsplit with h1 | h1
    · exact List.mem_takeWhile_imp h1
    · exact h c (List.mem_reverse.mpr h1)
  · intro h
    have h1 : List.dropWhile pySpace l = [] :=
      List.dropWhile_eq_nil_iff.mpr (fun x hx => h x hx)
    rw [h1]
    rfl

theorem readlinesAux_shape : ∀ (s acc : Str), (∀ c ∈ s, c ≠ '\r') →
    (∀ c ∈ acc, c ≠ '\n' ∧ c ≠ '\r') →
    ∀ l ∈ readlinesAux s acc, ∃ body, (∀ c ∈ body, c ≠ '\n' ∧ c ≠ '\r') ∧
      (l = body ++ ['\n'] ∨ l = body) := by
  intro s acc
  induction s, acc using readlinesAux.induct with
  | case1 =>
    intro _ _ l hl
    rw [readlinesAux.eq_1] at hl
    simp at hl
  | case2 acc hne =>
    intro hs hacc l hl
    rw [readlinesAux.eq_1, if_neg hne] at hl
    rcases List.mem_singleton.mp hl with rfl
    exact ⟨acc.reverse, fun c hc => hacc c (List.mem_reverse.mp hc), Or.inr rfl⟩
  | case3 rest acc ih =>
    intro hs hacc l hl
    rw [readlinesAux.eq_2, if_pos rfl] at hl
    rcases List.mem_cons.mp hl with rfl | h
    · exact ⟨acc.reverse, fun c hc => hacc c (List.mem_reverse.mp hc), Or.inl rfl⟩
    · exact ih (fun c hc => hs c (List.mem_cons_of_mem _ hc))
        (fun c hc => absurd hc (List.not_mem_nil c)) l h
  | case4 c0 rest acc hne ih =>
    intro hs hacc l hl
    rw [readlinesAux.eq_2, if_neg hne] at hl
    refine ih (fun c hc => hs c (List.mem_cons_of_mem _ hc)) ?_ l hl
    intro c hc
    rcases List.mem_cons.mp hc with rfl | hc2
    · exact ⟨hne, hs c (List.mem_cons_self _ _)⟩
    · exact hacc c hc2

theorem dropWhile_eq_self_of_no (p : Char → Bool) (l : Str)
    (h : ∀ c ∈ l, ¬ p c = true) : List.dropWhile p l = l := by
  cases l with
  | nil => rfl
  | cons c rest =>
    rw [List.dropWhile_cons, if_neg (h c (List.mem_cons_self _ _))]

theorem pyRstripNL_of_body {body : Str}
    (hb : ∀ c ∈ body, c ≠ '\n' ∧ c ≠ '\r') :
    pyRstripNL (body ++ ['\n']) = body ∧ pyRstripNL body = body := by
  have hno : ∀ c ∈ body.reverse, ¬ ((c = '\n' || c = '\r') = true) := by
    intro c hc
    have h2 := hb c (List.mem_reverse.mp hc)
    simp [h2.1, h2.2]
  constructor
  · unfold pyRstripNL
    rw [List.reverse_append]
    simp only [List.reverse_cons, List.reverse_nil, List.nil_append,
      List.singleton_append]
    rw [List.dropWhile_cons, if_pos (by decide)]
    rw [dropWhile_eq_self_of_no _ _ hno, List.reverse_reverse]
  · unfold pyRstripNL
    rw [dropWhile_eq_self_of_no _ _ hno, List.reverse_reverse]

theorem readlinesAux_append (body : Str) : ∀ (rest acc : Str), '\n' ∉ body →
    readlinesAux (body ++ '\n' :: rest) acc =
      (acc.reverse ++ body ++ ['\n']) :: readlinesAux rest [] := by
  induction body with
  | nil =>
    intro rest acc _
    simp only [List.nil_append]
    rw [readlinesAux.eq_2, if_pos rfl]
    simp
  | cons c body ih =>
    intro rest acc hb
    have hc : c ≠ '\n' := fun he => hb (he ▸ List.mem_cons_self _ _)
    simp only [List.cons_append]
    rw [readlinesAux.eq_2, if_neg hc]
    rw [ih rest (c :: acc) (fun hm => hb (List.mem_cons_of_mem _ hm))]
    simp

theorem readlines_flatten_aux (L : List Str) : (∀ l ∈ L, '\n' ∉ l) →
    readlinesAux ((L.map (fun l => l ++ ['\n'])).flatten) [] =
      L.map (fun l => l ++ ['\n']) := by
  induction L with
  | nil => intro _; rfl
  | cons l L ih =>
    intro h
    simp only [List.map_cons, List.flatten_cons]
    have he : (l ++ ['\n']) ++ (List.map (fun l => l ++ ['\n']) L).flatten =
        l ++ '\n' :: (List.map (fun l => l ++ ['\n']) L).flatten := by
      simp
    rw [he, readlinesAux_append l _ [] (h l (List.mem_cons_self _ _))]
    rw [ih (fun l2 h2 => h l2 (List.mem_cons_of_mem _ h2))]
    simp

theorem readlines_flatten (L : List Str)
    (h : ∀ l ∈ L, ∀ c ∈ l, c ≠ '\n' ∧ c ≠ '\r') :
    pyReadlines ((L.map (fun l => l ++ ['\n'])).flatten) =
      L.map (fun l => l ++ ['\n']) := by
  unfold pyReadlines
  have hnr : ∀ c ∈ (L.map (fun l => l ++ ['\n'])).flatten, c ≠ '\r' := by
    intro c hc
    rw [List.mem_flatten] at hc
    obtain ⟨l1, hl1, hcl⟩ := hc
    rw [List.mem_map] at hl1
    obtain ⟨l, hl, rfl⟩ := hl1
    rcases List.mem_append.mp hcl with h1 | h1
    · exact (h l hl c h1).2
    · rcases List.mem_singleton.mp h1 with rfl
      decide
  rw [translate_id _ hnr]
  exact readlines_flatten_aux L (fun l hl hm => (h l hl '\n' hm).1 rfl)

/-- A line kept by the cleanup filter: its rstripped form is free of
    newline characters, and normalising it back to end in a newline leaves
    it non-blank. -/
theorem cleaned_line_props (content l : Str)
    (hl : l ∈ (pyReadlines content).filter (fun l => !(pyStrip l).isEmpty)) :
    (∀ c ∈ pyRstripNL l, c ≠ '\n' ∧ c ≠ '\r') ∧
    pyStrip (pyRstripNL l ++ ['\n']) ≠ [] := by
  have hmem := (List.mem_filter.mp hl).1
  have hpred := (List.mem_filter.mp hl).2
  have hstrip : pyStrip l ≠ [] := by
    intro he
    rw [he] at hpred
    simp at hpred
  unfold pyReadlines at hmem
  obtain ⟨body, hbody, hshape⟩ :=
    readlinesAux_shape (translateNewlines content) [] (translate_no_cr content)
      (fun c hc => absurd hc (List.not_mem_nil c)) l hmem
  have hr : pyRstripNL l = body := by
    rcases hshape with rfl | rfl
    · exact (pyRstripNL_of_body hbody).1
    · exact (pyRstripNL_of_body hbody).2
  refine ⟨by rw [hr]; exact hbody, ?_⟩
  rw [hr]
  intro he
  rw [pyStrip_eq_nil_iff] at he
  have hex : ¬ ∀ c ∈ l, pySpace c = true :=
    fun hall => hstrip ((pyStrip_eq_nil_iff l).mpr hall)
  push_neg at hex
  obtain ⟨c, hcl, hcs⟩ := hex
  have hcb : c ∈ body ++ ['\n'] := by
    rcases hshape with rfl | rfl
    · exact hcl
    · exact List.mem_append_left _ hcl
  exact hcs (he c hcb)

/-! ### Step lemmas for the rollover writer -/

theorem preRollover_pos {fs : FS} {base : Str} {idx0 maxBytes : Nat}
    {hdr0 : Option Str}
    (h : fsExists fs (resolveName base idx0) = true ∧
         fsSize fs (resolveName base idx0) > maxBytes) :
    preRollover fs base idx0 maxBytes hdr0 =
      ⟨idx0 + 1, none, resolveName base (idx0 + 1)⟩ := by
  unfold preRollover
  rw [if_pos h]

theorem preRollover_neg {fs : FS} {base : Str} {idx0 maxBytes : Nat}
    {hdr0 : Option Str}
    (h : ¬ (fsExists fs (resolveName base idx0) = true ∧
            fsSize fs (resolveName base idx0) > maxBytes)) :
    preRollover fs base idx0 maxBytes hdr0 =
      ⟨idx0, hdr0, resolveName base idx0⟩ := by
  unfold preRollover
  rw [if_neg h]

theorem preRollover_idx_cases (fs : FS) (base : Str) (idx0 maxBytes : Nat)
    (hdr0 : Option Str) :
    (preRollover fs base idx0 maxBytes hdr0).idx = idx0 ∨
    (preRollover fs base idx0 maxBytes hdr0).idx = idx0 + 1 := by
  unfold preRollover
  split <;> simp

theorem preRollover_of_truthy {fs : FS} {base : Str} {idx0 maxBytes : Nat}
    {hdr0 : Option Str}
    (h : headerTruthy (preRollover fs base idx0 maxBytes hdr0).hdr = true) :
    preRollover fs base idx0 maxBytes hdr0 =
      ⟨idx0, hdr0, resolveName base idx0⟩ := by
  by_cases hc : fsExists fs (resolveName base idx0) = true ∧
      fsSize fs (resolveName base idx0) > maxBytes
  · rw [preRollover_pos hc] at h
    simp [headerTruthy] at h
  · exact preRollover_neg hc

theorem decideWrite_all {fe : Bool} {hdr1 : Option Str} {bh : Str}
    {dl : List Str} (h : fe = false ∨ headerTruthy hdr1 = false) :
    decideWrite fe hdr1 bh dl = ⟨bh :: dl, some bh, none⟩ := by
  unfold decideWrite
  rw [if_pos h]

theorem decideWrite_same {fe : Bool} {hdr1 : Option Str} {bh : Str}
    {dl : List Str} (h1 : fe = true) (h2 : headerTruthy hdr1 = true)
    (h3 : hdr1 = some bh) :
    decideWrite fe hdr1 bh dl = ⟨dl, hdr1, none⟩ := by
  unfold decideWrite
  rw [if_neg (by simp [h1, h2]), if_pos h3]

theorem decideWrite_mismatch {fe : Bool} {hdr1 : Option Str} {bh : Str}
    {dl : List Str} (h1 : fe = true) (h2 : headerTruthy hdr1 = true)
    (h3 : ¬ hdr1 = some bh) :
    decideWrite fe hdr1 bh dl = ⟨[], hdr1, some (hdr1.getD [], bh)⟩ := by
  unfold decideWrite
  rw [if_neg (by simp [h1, h2]), if_neg h3]

theorem writer_of_blank {fs : FS} {raw base : Str} {idx0 maxMb : Nat}
    {hdr0 : Option Str} {ioFail : Option Nat} (h : pyStrip raw = []) :
    append_results_to_csv_with_rollover fs raw base idx0 maxMb hdr0 ioFail =
      ⟨(preRollover fs base idx0 (maxMb * 1024 * 1024) hdr0).idx,
       (preRollover fs base idx0 (maxMb * 1024 * 1024) hdr0).hdr,
       (preRollover fs base idx0 (maxMb * 1024 * 1024) hdr0).name, fs, none⟩ := by
  simp only [append_results_to_csv_with_rollover]
  rw [if_pos h]

theorem writer_of_clean {fs : FS} {raw base : Str} {idx0 maxMb : Nat}
    {hdr0 : Option Str} {ioFail : Option Nat} {bh : Str} {dl : List Str}
    (hclean : cleanBatchLines raw = bh :: dl) :
    append_results_to_csv_with_rollover fs raw base idx0 maxMb hdr0 ioFail =
      (let p := preRollover fs base idx0 (maxMb * 1024 * 1024) hdr0
       let d := decideWrite (fsExists fs p.name) p.hdr bh dl
       if d.toWrite = [] then
         ⟨p.idx, d.hdr, p.name, fs, d.warn⟩
       else
         let written := match ioFail with
           | none => d.toWrite
           | some k => d.toWrite.take k
         let newContent := ((fsRead fs p.name).getD []) ++ linesJoined written
         let fs1 := fsWrite fs p.name newContent
         match ioFail with
         | some _ => ⟨p.idx, d.hdr, p.name, fs1, d.warn⟩
         | none =>
           if newContent.length > maxMb * 1024 * 1024 then
             ⟨p.idx + 1, none, p.name, fs1, d.warn⟩
           else
             ⟨p.idx, d.hdr, p.name, fs1, d.warn⟩) := by
  have hs : ¬ pyStrip raw = [] :=
    strip_ne_nil_of_clean (by rw [hclean]; exact List.cons_ne_nil _ _)
  simp only [append_results_to_csv_with_rollover, hclean]
  rw [if_neg hs]

theorem writer_of_clean_nil {fs : FS} {raw base : Str} {idx0 maxMb : Nat}
    {hdr0 : Option Str} {ioFail : Option Nat}
    (hs : ¬ pyStrip raw = []) (hclean : cleanBatchLines raw = []) :
    append_results_to_csv_with_rollover fs raw base idx0 maxMb hdr0 ioFail =
      ⟨(preRollover fs base idx0 (maxMb * 1024 * 1024) hdr0).idx,
       (preRollover fs base idx0 (maxMb * 1024 * 1024) hdr0).hdr,
       (preRollover fs base idx0 (maxMb * 1024 * 1024) hdr0).name, fs, none⟩ := by
  simp only [append_results_to_csv_with_rollover, hclean]
  rw [if_neg hs]

theorem writer_filename_eq (fs : FS) (raw base : Str) (idx0 maxMb : Nat)
    (hdr0 : Option Str) (ioFail : Option Nat) :
    (append_results_to_csv_with_rollover fs raw base idx0 maxMb hdr0 ioFail).filename =
      (preRollover fs base idx0 (maxMb * 1024 * 1024) hdr0).name := by
  by_cases hb : pyStrip raw = []
  · rw [writer_of_blank hb]
  · cases hc : cleanBatchLines raw with
    | nil => rw [writer_of_clean_nil hb hc]
    | cons bh dl =>
      rw [writer_of_clean hc]
      simp only []
      split
      · rfl
      · cases ioFail with
        | some k => rfl
        | none =>
          dsimp only
          split <;> rfl

theorem writer_idx_cases (fs : FS) (raw base : Str) (idx0 maxMb : Nat)
    (hdr0 : Option Str) (ioFail : Option Nat) :
    (append_results_to_csv_with_rollover fs raw base idx0 maxMb hdr0 ioFail).idx =
      (preRollover fs base idx0 (maxMb * 1024 * 1024) hdr0).idx ∨
    (append_results_to_csv_with_rollover fs raw base idx0 maxMb hdr0 ioFail).idx =
      (preRollover fs base idx0 (maxMb * 1024 * 1024) hdr0).idx + 1 := by
  by_cases hb : pyStrip raw = []
  · rw [writer_of_blank hb]; exact Or.inl rfl
  · cases hc : cleanBatchLines raw with
    | nil => rw [writer_of_clean_nil hb hc]; exact Or.inl rfl
    | cons bh dl =>
      rw [writer_of_clean hc]
      simp only []
      split
      · exact Or.inl rfl
      · cases ioFail with
        | some k => exact Or.inl rfl
        | none =>
          dsimp only
          split
          · exact Or.inr rfl
          · exact Or.inl rfl

/-! ### Claims -/

/-- Batches taken in order reconstruct a prefix of the list. -/
theorem chunks_flatten (l : List Str) (n : Nat) :
    ((List.range n).map (batchOf l)).flatten = l.take (n * 50) := by
  induction n with
  | zero => simp
  | succ n ih =>
    rw [List.range_succ, List.map_append, List.flatten_append, ih]
    have he : (n + 1) * 50 = n * 50 + 50 := by ring
    rw [he, List.take_add]
    simp [batchOf]

/-- C5: decode_vins_in_batches partitions a non-empty identifier list into
    exactly ceil(N/50) contiguous batches, in order, covering every
    identifier exactly once, each of size at most 50 and none empty, and the
    request payload of each batch is its identifiers joined with ";". -/
theorem c5_batch_partition (vins : List Str) (hne : vins ≠ []) :
    ((List.range (numBatches vins)).map (batchOf vins)).flatten = vins ∧
    (vins.length ≤ 50 * numBatches vins ∧
     50 * numBatches vins < vins.length + 50) ∧
    (∀ i, (batchOf vins i).length ≤ 50) ∧
    (∀ i, i < numBatches vins → batchOf vins i ≠ []) ∧
    (∀ i, vinPayload vins i = List.intercalate [';'] (batchOf vins i)) := by
  refine ⟨?_, ⟨?_, ?_⟩, ?_, ?_, ?_⟩
  · rw [chunks_flatten]
    apply List.take_of_length_le
    unfold numBatches
    omega
  · unfold numBatches
    omega
  · unfold numBatches
    omega
  · intro i
    unfold batchOf
    exact List.length_take_le _ _
  · intro i hi
    unfold batchOf
    rw [Ne, List.take_eq_nil_iff]
    intro h
    rcases h with h | h
    · exact absurd h (by decide)
    · rw [List.drop_eq_nil_iff] at h
      unfold numBatches at hi
      omega
  · intro i
    rfl

/-- C5 witness: the list ["A", "B"] forms a single batch covering both
    identifiers, with payload "A;B". -/
theorem c5_batch_partition_witness :
    ([['A'], ['B']] : List Str) ≠ [] ∧
    ((List.range (numBatches [['A'], ['B']])).map (batchOf [['A'], ['B']])).flatten =
      [['A'], ['B']] ∧
    numBatches [['A'], ['B']] = 1 ∧
    batchOf [['A'], ['B']] 0 ≠ [] ∧
    vinPayload [['A'], ['B']] 0 = ['A', ';', 'B'] :=
  ⟨by decide,
   (c5_batch_partition [['A'], ['B']] (by decide)).1,
   by decide,
   (c5_batch_partition [['A'], ['B']] (by decide)).2.2.2.1 0 (by decide),
   by decide⟩

/-- C1: per-call header merging of the rollover writer, for a non-blank
    batch with clean lines bh :: dl and no I/O failure. If the resolved
    target file is missing or no truthy header is recorded, all clean lines
    (header plus data) are appended, and when no post-write rollover occurs
    the batch header becomes the returned recorded header with the index
    unchanged. If the batch header equals the truthy recorded header of the
    existing file, only the data lines are appended, and with no data lines
    nothing is written at all. -/
theorem c1_header_merge_per_call (fs : FS) (raw base : Str) (idx0 maxMb : Nat)
    (hdr0 : Option Str) (bh : Str) (dl : List Str)
    (hclean : cleanBatchLines raw = bh :: dl) :
    ((fsExists fs (preRollover fs base idx0 (maxMb * 1024 * 1024) hdr0).name = false ∨
      headerTruthy (preRollover fs base idx0 (maxMb * 1024 * 1024) hdr0).hdr = false) →
      (append_results_to_csv_with_rollover fs raw base idx0 maxMb hdr0 none).fs =
        fsWrite fs (preRollover fs base idx0 (maxMb * 1024 * 1024) hdr0).name
          (((fsRead fs (preRollover fs base idx0 (maxMb * 1024 * 1024) hdr0).name).getD []) ++
            linesJoined (bh :: dl)) ∧
      ((((fsRead fs (preRollover fs base idx0 (maxMb * 1024 * 1024) hdr0).name).getD []) ++
            linesJoined (bh :: dl)).length ≤ maxMb * 1024 * 1024 →
        (append_results_to_csv_with_rollover fs raw base idx0 maxMb hdr0 none).headers =
          some bh ∧
        (append_results_to_csv_with_rollover fs raw base idx0 maxMb hdr0 none).idx =
          (preRollover fs base idx0 (maxMb * 1024 * 1024) hdr0).idx)) ∧
    (fsExists fs (preRollover fs base idx0 (maxMb * 1024 * 1024) hdr0).name = true →
     (preRollover fs base idx0 (maxMb * 1024 * 1024) hdr0).hdr = some bh →
      ((dl = [] →
         (append_results_to_csv_with_rollover fs raw base idx0 maxMb hdr0 none).fs = fs ∧
         (append_results_to_csv_with_rollover fs raw base idx0 maxMb hdr0 none).headers =
           some bh ∧
         (append_results_to_csv_with_rollover fs raw base idx0 maxMb hdr0 none).idx =
           (preRollover fs base idx0 (maxMb * 1024 * 1024) hdr0).idx ∧
         (append_results_to_csv_with_rollover fs raw base idx0 maxMb hdr0 none).warn = none) ∧
       (dl ≠ [] →
         (append_results_to_csv_with_rollover fs raw base idx0 maxMb hdr0 none).fs =
           fsWrite fs (preRollover fs base idx0 (maxMb * 1024 * 1024) hdr0).name
             (((fsRead fs (preRollover fs base idx0 (maxMb * 1024 * 1024) hdr0).name).getD []) ++
               linesJoined dl)))) := by
  constructor
  · intro hbr
    rw [writer_of_clean hclean]
    simp only []
    rw [decideWrite_all hbr]
    try dsimp only
    rw [if_neg (List.cons_ne_nil bh dl)]
    try dsimp only
    constructor
    · split <;> rfl
    · intro hle
      rw [if_neg (by omega)]
      exact ⟨rfl, rfl⟩
  · intro hex hhdr
    have hbh : bh ≠ [] := clean_head_ne_nil hclean
    have ht : headerTruthy (preRollover fs base idx0 (maxMb * 1024 * 1024) hdr0).hdr = true := by
      rw [hhdr]
      exact headerTruthy_some hbh
    rw [writer_of_clean hclean]
    simp only []
    rw [decideWrite_same hex ht hhdr]
    try dsimp only
    constructor
    · intro hdl
      subst hdl
      rw [if_pos rfl]
      exact ⟨rfl, hhdr, rfl, rfl⟩
    · intro hdl
      rw [if_neg hdl]
      try dsimp only
      split <;> rfl

/-- C1 witness: the batch "V\na" against an empty filesystem creates b.csv
    with content "V\na\n", records header "V" and keeps index 0; and a
    matching header-only batch "H" against b.csv with recorded header "H"
    writes nothing. -/
theorem c1_header_merge_per_call_witness :
    cleanBatchLines ['V', '\n', 'a'] = [['V'], ['a']] ∧
    (append_results_to_csv_with_rollover [] ['V', '\n', 'a'] ['b'] 0 5 none none).fs =
      [(['b', '.', 'c', 's', 'v'], ['V', '\n', 'a', '\n'])] ∧
    (append_results_to_csv_with_rollover [] ['V', '\n', 'a'] ['b'] 0 5 none none).headers =
      some ['V'] ∧
    (append_results_to_csv_with_rollover [(['b', '.', 'c', 's', 'v'], ['H', '\n'])]
        ['H'] ['b'] 0 5 (some ['H']) none).fs =
      [(['b', '.', 'c', 's', 'v'], ['H', '\n'])] := by
  refine ⟨by decide, ?_, ?_, ?_⟩
  · have h := ((c1_header_merge_per_call [] ['V', '\n', 'a'] ['b'] 0 5 none ['V'] [['a']]
      (by decide)).1 (Or.inl (by decide))).1
    rw [h]
    decide
  · exact ((c1_header_merge_per_call [] ['V', '\n', 'a'] ['b'] 0 5 none ['V'] [['a']]
      (by decide)).1 (Or.inl (by decide))).2 (by decide) |>.1
  · exact (((c1_header_merge_per_call [(['b', '.', 'c', 's', 'v'], ['H', '\n'])]
      ['H'] ['b'] 0 5 (some ['H']) ['H'] []
      (by decide)).2 (by decide) (by decide)).1 rfl).1

/-- C3: the returned filename is always the one resolved (after the
    pre-write rollover) and written to in this call; when the resolved file
    of the incoming index exists oversized, the pre-write check advances the
    index, clears the header and re-resolves the name; and when a
    successful write leaves the file oversized, the returned index is
    advanced once more and the returned header cleared, while the filename
    still names the file written in this call. -/
theorem c3_rollover_pre_and_post (fs : FS) (raw base : Str) (idx0 maxMb : Nat)
    (hdr0 : Option Str) (ioFail : Option Nat) (bh : Str) (dl : List Str) :
    (append_results_to_csv_with_rollover fs raw base idx0 maxMb hdr0 ioFail).filename =
      (preRollover fs base idx0 (maxMb * 1024 * 1024) hdr0).name ∧
    ((fsExists fs (resolveName base idx0) = true ∧
      fsSize fs (resolveName base idx0) > maxMb * 1024 * 1024) →
      preRollover fs base idx0 (maxMb * 1024 * 1024) hdr0 =
        ⟨idx0 + 1, none, resolveName base (idx0 + 1)⟩) ∧
    (cleanBatchLines raw = bh :: dl →
     ioFail = none →
     (decideWrite (fsExists fs (preRollover fs base idx0 (maxMb * 1024 * 1024) hdr0).name)
        (preRollover fs base idx0 (maxMb * 1024 * 1024) hdr0).hdr bh dl).toWrite ≠ [] →
     (((fsRead fs (preRollover fs base idx0 (maxMb * 1024 * 1024) hdr0).name).getD []) ++
        linesJoined
          (decideWrite (fsExists fs (preRollover fs base idx0 (maxMb * 1024 * 1024) hdr0).name)
            (preRollover fs base idx0 (maxMb * 1024 * 1024) hdr0).hdr bh dl).toWrite).length >
        maxMb * 1024 * 1024 →
     (append_results_to_csv_with_rollover fs raw base idx0 maxMb hdr0 ioFail).idx =
       (preRollover fs base idx0 (maxMb * 1024 * 1024) hdr0).idx + 1 ∧
     (append_results_to_csv_with_rollover fs raw base idx0 maxMb hdr0 ioFail).headers = none) := by
  refine ⟨writer_filename_eq fs raw base idx0 maxMb hdr0 ioFail, preRollover_pos, ?_⟩
  intro hclean hf htw hlen
  subst hf
  rw [writer_of_clean hclean]
  simp only []
  rw [if_neg htw]
  try dsimp only
  rw [if_pos hlen]
  exact ⟨rfl, rfl⟩

/-- C3 witness: with max size 0, an existing oversized b.csv and the batch
    "H\nd", the pre-write check rolls over to b1.csv, the write overflows it
    again, and the call returns index 2 with header cleared while naming
    b1.csv — the file it wrote — as the filename used. -/
theorem c3_rollover_pre_and_post_witness :
    (append_results_to_csv_with_rollover [(['b', '.', 'c', 's', 'v'], ['x', '\n'])]
        ['H', '\n', 'd'] ['b'] 0 0 (some ['H']) none).filename =
      (preRollover [(['b', '.', 'c', 's', 'v'], ['x', '\n'])] ['b'] 0 0 (some ['H'])).name ∧
    preRollover [(['b', '.', 'c', 's', 'v'], ['x', '\n'])] ['b'] 0 0 (some ['H']) =
      ⟨1, none, resolveName ['b'] 1⟩ ∧
    (append_results_to_csv_with_rollover [(['b', '.', 'c', 's', 'v'], ['x', '\n'])]
        ['H', '\n', 'd'] ['b'] 0 0 (some ['H']) none).idx = 2 ∧
    (append_results_to_csv_with_rollover [(['b', '.', 'c', 's', 'v'], ['x', '\n'])]
        ['H', '\n', 'd'] ['b'] 0 0 (some ['H']) none).headers = none := by
  have h := c3_rollover_pre_and_post [(['b', '.', 'c', 's', 'v'], ['x', '\n'])]
    ['H', '\n', 'd'] ['b'] 0 0 (some ['H']) none ['H'] [['d']]
  refine ⟨h.1, h.2.1 (by decide), ?_, ?_⟩
  · have h2 := h.2.2 (by decide) rfl (by decide) (by decide)
    rw [h2.1]
    decide
  · exact (h.2.2 (by decide) rfl (by decide) (by decide)).2

/-- C8: the returned index never decreases and grows by at most 2 in one
    call (one pre-write and one post-write rollover); and the pre-write
    oversize check runs only once: when the file at the incremented index
    also exists oversized, the call still writes to it (appending the whole
    batch to the already-oversized file) without checking again, the
    post-write check then advancing the index to idx0 + 2. -/
theorem c8_index_growth_bound (fs : FS) (raw base : Str) (idx0 maxMb : Nat)
    (hdr0 : Option Str) (ioFail : Option Nat) (bh : Str) (dl : List Str) :
    (idx0 ≤ (append_results_to_csv_with_rollover fs raw base idx0 maxMb hdr0 ioFail).idx ∧
     (append_results_to_csv_with_rollover fs raw base idx0 maxMb hdr0 ioFail).idx ≤ idx0 + 2) ∧
    (cleanBatchLines raw = bh :: dl →
     ioFail = none →
     fsExists fs (resolveName base idx0) = true →
     fsSize fs (resolveName base idx0) > maxMb * 1024 * 1024 →
     fsExists fs (resolveName base (idx0 + 1)) = true →
     fsSize fs (resolveName base (idx0 + 1)) > maxMb * 1024 * 1024 →
      ((append_results_to_csv_with_rollover fs raw base idx0 maxMb hdr0 ioFail).filename =
         resolveName base (idx0 + 1) ∧
       fsRead (append_results_to_csv_with_rollover fs raw base idx0 maxMb hdr0 ioFail).fs
           (resolveName base (idx0 + 1)) =
         some (((fsRead fs (resolveName base (idx0 + 1))).getD []) ++ linesJoined (bh :: dl)) ∧
       (append_results_to_csv_with_rollover fs raw base idx0 maxMb hdr0 ioFail).idx =
         idx0 + 2)) := by
  constructor
  · rcases preRollover_idx_cases fs base idx0 (maxMb * 1024 * 1024) hdr0 with h | h <;>
      rcases writer_idx_cases fs raw base idx0 maxMb hdr0 ioFail with h2 | h2 <;> omega
  · intro hclean hf hex0 hs0 hex1 hs1
    subst hf
    have hp : preRollover fs base idx0 (maxMb * 1024 * 1024) hdr0 =
        ⟨idx0 + 1, none, resolveName base (idx0 + 1)⟩ := preRollover_pos ⟨hex0, hs0⟩
    unfold fsSize at hs1
    rw [writer_of_clean hclean]
    simp only [hp]
    try dsimp only
    rw [@decideWrite_all _ none bh dl (Or.inr rfl)]
    try dsimp only
    rw [if_neg (List.cons_ne_nil bh dl)]
    try dsimp only
    rw [if_pos (by rw [List.length_append]; omega)]
    exact ⟨rfl, fsRead_fsWrite_self _ _ _, rfl⟩

/-- C8 witness: with max size 0 and both b.csv and b1.csv existing
    oversized, the batch "H\nd" is appended to the oversized b1.csv without
    a second pre-write check, and the returned index is 2 = 0 + 2. -/
theorem c8_index_growth_bound_witness :
    (0 ≤ (append_results_to_csv_with_rollover
        [(['b', '.', 'c', 's', 'v'], ['x', '\n']), (['b', '1', '.', 'c', 's', 'v'], ['y', '\n'])]
        ['H', '\n', 'd'] ['b'] 0 0 (some ['H']) none).idx) ∧
    (append_results_to_csv_with_rollover
        [(['b', '.', 'c', 's', 'v'], ['x', '\n']), (['b', '1', '.', 'c', 's', 'v'], ['y', '\n'])]
        ['H', '\n', 'd'] ['b'] 0 0 (some ['H']) none).idx = 2 ∧
    fsRead (append_results_to_csv_with_rollover
        [(['b', '.', 'c', 's', 'v'], ['x', '\n']), (['b', '1', '.', 'c', 's', 'v'], ['y', '\n'])]
        ['H', '\n', 'd'] ['b'] 0 0 (some ['H']) none).fs (resolveName ['b'] 1) =
      some ['y', '\n', 'H', '\n', 'd', '\n'] := by
  have h := c8_index_growth_bound
    [(['b', '.', 'c', 's', 'v'], ['x', '\n']), (['b', '1', '.', 'c', 's', 'v'], ['y', '\n'])]
    ['H', '\n', 'd'] ['b'] 0 0 (some ['H']) none ['H'] [['d']]
  have h2 := h.2 (by decide) rfl (by decide) (by decide) (by decide) (by decide)
  refine ⟨h.1.1, h2.2.2, ?_⟩
  rw [h2.2.1]
  decide

/-- C6 counterexample: with base "b", an existing file b.csv of content "x\n"
    (size 2 bytes), max_size_mb = 0, starting index 0 and recorded header "H",
    the whitespace-only batch " " makes
    append_results_to_csv_with_rollover return index 1 and header None while
    writing nothing; the returned state is therefore not equal to the input
    state, contradicting the claim that a blank batch leaves the returned
    index and header unchanged. -/
theorem c6_counterexample :
    (append_results_to_csv_with_rollover [(['b', '.', 'c', 's', 'v'], ['x', '\n'])]
        [' '] ['b'] 0 0 (some ['H']) none).idx = 1 ∧
    (append_results_to_csv_with_rollover [(['b', '.', 'c', 's', 'v'], ['x', '\n'])]
        [' '] ['b'] 0 0 (some ['H']) none).headers = none ∧
    (append_results_to_csv_with_rollover [(['b', '.', 'c', 's', 'v'], ['x', '\n'])]
        [' '] ['b'] 0 0 (some ['H']) none).fs =
      [(['b', '.', 'c', 's', 'v'], ['x', '\n'])] := by
  decide

/-- C6 (amended): a call whose raw batch text is empty or all whitespace
    writes nothing (filesystem unchanged, no warning) and returns the index,
    header and resolved target filename exactly as they stand after the
    initial pre-write rollover check; in particular the index and header are
    unchanged whenever that check did not fire. -/
theorem c6_blank_batch_amended (fs : FS) (raw base : Str) (idx0 maxMb : Nat)
    (hdr0 : Option Str) (ioFail : Option Nat) (h : pyStrip raw = []) :
    (append_results_to_csv_with_rollover fs raw base idx0 maxMb hdr0 ioFail).fs = fs ∧
    (append_results_to_csv_with_rollover fs raw base idx0 maxMb hdr0 ioFail).idx =
      (preRollover fs base idx0 (maxMb * 1024 * 1024) hdr0).idx ∧
    (append_results_to_csv_with_rollover fs raw base idx0 maxMb hdr0 ioFail).headers =
      (preRollover fs base idx0 (maxMb * 1024 * 1024) hdr0).hdr ∧
    (append_results_to_csv_with_rollover fs raw base idx0 maxMb hdr0 ioFail).filename =
      (preRollover fs base idx0 (maxMb * 1024 * 1024) hdr0).name ∧
    (append_results_to_csv_with_rollover fs raw base idx0 maxMb hdr0 ioFail).warn = none := by
  rw [writer_of_blank h]
  exact ⟨rfl, rfl, rfl, rfl, rfl⟩

/-- C6 witness: the amended statement evaluated on a concrete blank batch
    against an empty filesystem. -/
theorem c6_blank_batch_amended_witness :
    pyStrip [' '] = [] ∧
    (append_results_to_csv_with_rollover [] [' '] ['b'] 0 0 none none).fs = [] :=
  ⟨by decide, (c6_blank_batch_amended [] [' '] ['b'] 0 0 none none (by decide)).1⟩

/-- C2: when the batch header differs from the truthy recorded header of an
    existing, not oversized target file, the batch is dropped whole: the
    filesystem is unchanged, the warning carries both header strings, and
    the returned index, header and filename equal their pre-decision values.
    (The pre-write rollover cannot have fired here, since it would have
    cleared the recorded header.) -/
theorem c2_header_mismatch_drops_batch (fs : FS) (raw base : Str)
    (idx0 maxMb : Nat) (hdr0 : Option Str) (ioFail : Option Nat)
    (bh : Str) (dl : List Str)
    (hclean : cleanBatchLines raw = bh :: dl)
    (hex : fsExists fs (resolveName base idx0) = true)
    (hsize : ¬ fsSize fs (resolveName base idx0) > maxMb * 1024 * 1024)
    (ht : headerTruthy hdr0 = true)
    (hmm : ¬ hdr0 = some bh) :
    (append_results_to_csv_with_rollover fs raw base idx0 maxMb hdr0 ioFail).fs = fs ∧
    (append_results_to_csv_with_rollover fs raw base idx0 maxMb hdr0 ioFail).idx = idx0 ∧
    (append_results_to_csv_with_rollover fs raw base idx0 maxMb hdr0 ioFail).headers = hdr0 ∧
    (append_results_to_csv_with_rollover fs raw base idx0 maxMb hdr0 ioFail).filename =
      resolveName base idx0 ∧
    (append_results_to_csv_with_rollover fs raw base idx0 maxMb hdr0 ioFail).warn =
      some (hdr0.getD [], bh) := by
  have hp : preRollover fs base idx0 (maxMb * 1024 * 1024) hdr0 =
      ⟨idx0, hdr0, resolveName base idx0⟩ :=
    preRollover_neg (fun hc => hsize hc.2)
  rw [writer_of_clean hclean]
  simp only [hp]
  rw [decideWrite_mismatch hex ht hmm]
  simp

/-- C2 witness: a concrete mismatched batch ("X,r" against recorded header
    "H") targeting an existing small file is dropped with a warning. -/
theorem c2_header_mismatch_drops_batch_witness :
    cleanBatchLines ['X', '\n', 'r'] = [['X'], ['r']] ∧
    fsExists [(['b', '.', 'c', 's', 'v'], ['H', '\n'])] (resolveName ['b'] 0) = true ∧
    ¬ fsSize [(['b', '.', 'c', 's', 'v'], ['H', '\n'])] (resolveName ['b'] 0) > 5 * 1024 * 1024 ∧
    headerTruthy (some ['H']) = true ∧
    ¬ (some ['H'] : Option Str) = some ['X'] ∧
    (append_results_to_csv_with_rollover [(['b', '.', 'c', 's', 'v'], ['H', '\n'])]
        ['X', '\n', 'r'] ['b'] 0 5 (some ['H']) none).fs =
      [(['b', '.', 'c', 's', 'v'], ['H', '\n'])] ∧
    (append_results_to_csv_with_rollover [(['b', '.', 'c', 's', 'v'], ['H', '\n'])]
        ['X', '\n', 'r'] ['b'] 0 5 (some ['H']) none).warn = some (['H'], ['X']) :=
  ⟨by decide, by decide, by decide, by decide, by decide,
   (c2_header_mismatch_drops_batch [(['b', '.', 'c', 's', 'v'], ['H', '\n'])]
      ['X', '\n', 'r'] ['b'] 0 5 (some ['H']) none ['X'] [['r']]
      (by decide) (by decide) (by decide) (by decide) (by decide)).1,
   (c2_header_mismatch_drops_batch [(['b', '.', 'c', 's', 'v'], ['H', '\n'])]
      ['X', '\n', 'r'] ['b'] 0 5 (some ['H']) none ['X'] [['r']]
      (by decide) (by decide) (by decide) (by decide) (by decide)).2.2.2.2⟩

/-- C4: when the append raises an IOError (modelled by ioFail = some k, the
    error striking after k lines), the call still returns (the embedding is
    total, mirroring that the exception is caught), and the returned index
    and header are exactly the pre-write values: the index as of the initial
    rollover check and the header decided in the pre-write decision step
    (steps 1-6 of the spec), the post-write rollover being skipped. -/
theorem c4_write_error_prewrite_state (fs : FS) (raw base : Str)
    (idx0 maxMb : Nat) (hdr0 : Option Str) (k : Nat) (bh : Str) (dl : List Str)
    (hclean : cleanBatchLines raw = bh :: dl)
    (hW : (decideWrite
            (fsExists fs (preRollover fs base idx0 (maxMb * 1024 * 1024) hdr0).name)
            (preRollover fs base idx0 (maxMb * 1024 * 1024) hdr0).hdr bh dl).toWrite ≠ []) :
    (append_results_to_csv_with_rollover fs raw base idx0 maxMb hdr0 (some k)).idx =
      (preRollover fs base idx0 (maxMb * 1024 * 1024) hdr0).idx ∧
    (append_results_to_csv_with_rollover fs raw base idx0 maxMb hdr0 (some k)).headers =
      (decideWrite
        (fsExists fs (preRollover fs base idx0 (maxMb * 1024 * 1024) hdr0).name)
        (preRollover fs base idx0 (maxMb * 1024 * 1024) hdr0).hdr bh dl).hdr ∧
    (append_results_to_csv_with_rollover fs raw base idx0 maxMb hdr0 (some k)).filename =
      (preRollover fs base idx0 (maxMb * 1024 * 1024) hdr0).name := by
  rw [writer_of_clean hclean]
  simp only []
  rw [if_neg hW]
  exact ⟨rfl, rfl, rfl⟩

/-- C4 witness: a concrete failed write (IOError before any line is
    written) returns the pre-write index 0 and the header decided before
    the write. -/
theorem c4_write_error_prewrite_state_witness :
    cleanBatchLines ['H', '\n', 'd'] = [['H'], ['d']] ∧
    (append_results_to_csv_with_rollover [] ['H', '\n', 'd'] ['b'] 0 5 none (some 0)).idx = 0 ∧
    (append_results_to_csv_with_rollover [] ['H', '\n', 'd'] ['b'] 0 5 none (some 0)).headers =
      some ['H'] := by
  refine ⟨by decide, ?_, ?_⟩
  · exact (c4_write_error_prewrite_state [] ['H', '\n', 'd'] ['b'] 0 5 none 0 ['H'] [['d']]
      (by decide) (by decide)).1
  · have h := (c4_write_error_prewrite_state [] ['H', '\n', 'd'] ['b'] 0 5 none 0 ['H'] [['d']]
      (by decide) (by decide)).2.1
    rw [h]
    decide

/-- C9: when a batch response cleans to exactly one non-blank line (its
    header) and the writer call leaves the running header falsy (None or
    empty) — for instance because a post-write rollover just cleared it —
    the orchestrator records that line as the running header, and
    contributes no rows to the total. -/
theorem c9_header_only_records_running_header (base : Str) (maxMb : Nat)
    (st : OrchState) (raw h : Str) (ioFail : Option Nat)
    (hproc : cleanBatchLines raw = [h])
    (hT : headerTruthy (append_results_to_csv_with_rollover st.fs raw base st.idx maxMb
        st.headers ioFail).headers = false) :
    (processBatch base maxMb st (some raw) ioFail).headers = some h ∧
    (processBatch base maxMb st (some raw) ioFail).total = st.total := by
  have hs : pyStrip raw ≠ [] :=
    strip_ne_nil_of_clean (by rw [hproc]; exact List.cons_ne_nil _ _)
  have hr : raw ≠ [] := raw_ne_nil_of_clean (by rw [hproc]; exact List.cons_ne_nil _ _)
  have hh : h ≠ [] := clean_head_ne_nil hproc
  unfold processBatch
  dsimp only
  rw [if_pos ⟨hr, hs⟩]
  simp only [hproc]
  norm_num
  simp [hT, hh]

/-- C9 witness: a header-only response "H" against an empty filesystem with
    max size 0: the writer writes "H" to b.csv, overflows it, and returns a
    cleared header; the orchestrator still records "H" as the running
    header. -/
theorem c9_header_only_records_running_header_witness :
    cleanBatchLines ['H'] = [['H']] ∧
    headerTruthy (append_results_to_csv_with_rollover [] ['H'] ['b'] 0 0
        none none).headers = false ∧
    (processBatch ['b'] 0 ⟨0, 0, none, [], []⟩ (some ['H']) none).headers = some ['H'] :=
  ⟨by decide, by decide,
   (c9_header_only_records_running_header ['b'] 0 ⟨0, 0, none, [], []⟩ ['H'] ['H'] none
      (by decide) (by decide)).1⟩

/-- C10: for a batch that reaches the writer, the writer's returned
    filename is added to the written-files set exactly when that file
    exists on disk right after the writer call — whether or not the call
    wrote anything; consequently (second conjunct, a concrete run) the
    returned written-files list can name a file whose content the run never
    changed: a one-batch run whose write fails with an IOError before any
    line lands returns total 1, the written list [b.csv] and an unchanged
    filesystem. -/
theorem c10_written_files_membership (base : Str) (maxMb : Nat)
    (st : OrchState) (raw f : Str) (ioFail : Option Nat) (bh : Str) (dl : List Str)
    (hclean : cleanBatchLines raw = bh :: dl) :
    ((f ∈ (processBatch base maxMb st (some raw) ioFail).written ↔
      (f ∈ st.written ∨
       (fsExists (append_results_to_csv_with_rollover st.fs raw base st.idx maxMb
            st.headers ioFail).fs
          (append_results_to_csv_with_rollover st.fs raw base st.idx maxMb
            st.headers ioFail).filename = true ∧
        f = (append_results_to_csv_with_rollover st.fs raw base st.idx maxMb
            st.headers ioFail).filename)))) ∧
    (decode_vins_in_batches [(['b', '.', 'c', 's', 'v'], ['H', '\n'])] [['V']] ['b'] 500
        (fun _ => some ['X', '\n', 'r']) (fun _ => some 0) =
      (1, [['b', '.', 'c', 's', 'v']], [(['b', '.', 'c', 's', 'v'], ['H', '\n'])])) := by
  constructor
  · have hs : pyStrip raw ≠ [] :=
      strip_ne_nil_of_clean (by rw [hclean]; exact List.cons_ne_nil _ _)
    have hr : raw ≠ [] := raw_ne_nil_of_clean (by rw [hclean]; exact List.cons_ne_nil _ _)
    unfold processBatch
    dsimp only
    rw [if_pos ⟨hr, hs⟩]
    simp only [hclean]
    rw [if_pos (by simp)]
    dsimp only
    by_cases hfs : fsExists
        (append_results_to_csv_with_rollover st.fs raw base st.idx maxMb st.headers ioFail).fs
        (append_results_to_csv_with_rollover st.fs raw base st.idx maxMb st.headers
          ioFail).filename = true
    · rw [if_pos hfs]
      rw [mem_insertIfAbsent]
      simp [hfs]
    · rw [if_neg hfs]
      simp [hfs]
  · decide

/-- C10 witness: the concrete failed-write run of the second conjunct, where
    b.csv pre-exists; membership of b.csv in the written set follows from
    the first conjunct even though nothing was written to it. -/
theorem c10_written_files_membership_witness :
    cleanBatchLines ['X', '\n', 'r'] = [['X'], ['r']] ∧
    ['b', '.', 'c', 's', 'v'] ∈ (processBatch ['b'] 500
      ⟨0, 0, none, [], [(['b', '.', 'c', 's', 'v'], ['H', '\n'])]⟩
      (some ['X', '\n', 'r']) (some 0)).written :=
  ⟨by decide,
   (c10_written_files_membership ['b'] 500
      ⟨0, 0, none, [], [(['b', '.', 'c', 's', 'v'], ['H', '\n'])]⟩
      ['X', '\n', 'r'] ['b', '.', 'c', 's', 'v'] (some 0) ['X'] [['r']]
      (by decide)).1.mpr (Or.inr ⟨by decide, by decide⟩)⟩

/-- C7: the cleanup pass skips a missing file; skips the rewrite when no
    line is blank; in the rewrite case the resulting file consists exactly
    of the non-blank lines in their original order, each normalised to end
    in os.linesep (so no non-blank line is ever removed); and the pass is
    idempotent: applying it twice equals applying it once. -/
theorem c7_cleanup_idempotent (fs : FS) (path : Str) :
    (fsRead fs path = none → remove_blank_rows_from_file fs path = fs) ∧
    (∀ content, fsRead fs path = some content →
      ((pyReadlines content).filter (fun l => !(pyStrip l).isEmpty)).length =
          (pyReadlines content).length →
      remove_blank_rows_from_file fs path = fs) ∧
    (∀ content, fsRead fs path = some content →
      ¬ ((pyReadlines content).filter (fun l => !(pyStrip l).isEmpty)).length =
          (pyReadlines content).length →
      (fsRead (remove_blank_rows_from_file fs path) path =
        some ((((pyReadlines content).filter (fun l => !(pyStrip l).isEmpty)).map
          (fun l => pyRstripNL l ++ osLinesep)).flatten) ∧
       pyReadlines ((((pyReadlines content).filter (fun l => !(pyStrip l).isEmpty)).map
          (fun l => pyRstripNL l ++ osLinesep)).flatten) =
         ((pyReadlines content).filter (fun l => !(pyStrip l).isEmpty)).map
           (fun l => pyRstripNL l ++ osLinesep))) ∧
    remove_blank_rows_from_file (remove_blank_rows_from_file fs path) path =
      remove_blank_rows_from_file fs path := by
  have hlines2 : ∀ content,
      pyReadlines ((((pyReadlines content).filter (fun l => !(pyStrip l).isEmpty)).map
          (fun l => pyRstripNL l ++ osLinesep)).flatten) =
        ((pyReadlines content).filter (fun l => !(pyStrip l).isEmpty)).map
          (fun l => pyRstripNL l ++ osLinesep) := by
    intro content
    have hmap : ((pyReadlines content).filter (fun l => !(pyStrip l).isEmpty)).map
          (fun l => pyRstripNL l ++ osLinesep) =
        (((pyReadlines content).filter (fun l => !(pyStrip l).isEmpty)).map
          pyRstripNL).map (fun l => l ++ ['\n']) := by
      rw [List.map_map]
      rfl
    rw [hmap]
    apply readlines_flatten
    intro l2 hl2
    rw [List.mem_map] at hl2
    obtain ⟨l, hl, rfl⟩ := hl2
    exact (cleaned_line_props content l hl).1
  refine ⟨?_, ?_, ?_, ?_⟩
  · intro h
    unfold remove_blank_rows_from_file
    rw [h]
  · intro content hread hlen
    unfold remove_blank_rows_from_file
    rw [hread]
    dsimp only
    rw [if_pos hlen]
  · intro content hread hlen
    refine ⟨?_, hlines2 content⟩
    unfold remove_blank_rows_from_file
    rw [hread]
    dsimp only
    rw [if_neg hlen]
    exact fsRead_fsWrite_self _ _ _
  · cases hread : fsRead fs path with
    | none =>
      have h1 : remove_blank_rows_from_file fs path = fs := by
        unfold remove_blank_rows_from_file
        rw [hread]
      rw [h1, h1]
    | some content =>
      by_cases hlen : ((pyReadlines content).filter (fun l => !(pyStrip l).isEmpty)).length =
          (pyReadlines content).length
      · have h1 : remove_blank_rows_from_file fs path = fs := by
          unfold remove_blank_rows_from_file
          rw [hread]
          dsimp only
          rw [if_pos hlen]
        rw [h1, h1]
      · have h1 : remove_blank_rows_from_file fs path =
            fsWrite fs path ((((pyReadlines content).filter
              (fun l => !(pyStrip l).isEmpty)).map
                (fun l => pyRstripNL l ++ osLinesep)).flatten) := by
          unfold remove_blank_rows_from_file
          rw [hread]
          dsimp only
          rw [if_neg hlen]
        rw [h1]
        have hfilter2 : (((pyReadlines content).filter (fun l => !(pyStrip l).isEmpty)).map
              (fun l => pyRstripNL l ++ osLinesep)).filter (fun l => !(pyStrip l).isEmpty) =
            ((pyReadlines content).filter (fun l => !(pyStrip l).isEmpty)).map
              (fun l => pyRstripNL l ++ osLinesep) := by
          rw [List.filter_eq_self]
          intro a ha
          rw [List.mem_map] at ha
          obtain ⟨l, hl, rfl⟩ := ha
          have hnb := (cleaned_line_props content l hl).2
          simpa [List.isEmpty_iff, osLinesep] using hnb
        unfold remove_blank_rows_from_file
        rw [fsRead_fsWrite_self]
        dsimp only
        rw [hlines2 content, hfilter2]
        rw [if_pos rfl]

/-- C7 witness: on the file "f" with content "a\n\nb" the pass removes the
    blank middle line giving "a\nb\n", is idempotent, and skips a missing
    file "g". -/
theorem c7_cleanup_idempotent_witness :
    fsRead [(['f'], ['a', '\n', '\n', 'b'])] ['g'] = none ∧
    remove_blank_rows_from_file [(['f'], ['a', '\n', '\n', 'b'])] ['g'] =
      [(['f'], ['a', '\n', '\n', 'b'])] ∧
    remove_blank_rows_from_file
        (remove_blank_rows_from_file [(['f'], ['a', '\n', '\n', 'b'])] ['f']) ['f'] =
      remove_blank_rows_from_file [(['f'], ['a', '\n', '\n', 'b'])] ['f'] ∧
    fsRead (remove_blank_rows_from_file [(['f'], ['a', '\n', '\n', 'b'])] ['f']) ['f'] =
      some ['a', '\n', 'b', '\n'] := by
  refine ⟨by decide, ?_, ?_, ?_⟩
  · exact (c7_cleanup_idempotent [(['f'], ['a', '\n', '\n', 'b'])] ['g']).1 (by decide)
  · exact (c7_cleanup_idempotent [(['f'], ['a', '\n', '\n', 'b'])] ['f']).2.2.2
  · have h := ((c7_cleanup_idempotent [(['f'], ['a', '\n', '\n', 'b'])] ['f']).2.2.1
      ['a', '\n', '\n', 'b'] (by decide) (by decide)).1
    rw [h]
    decide

end VinDecoder
